import Mathlib

/-!
Verification of the Tetra3 pipeline orchestration script (`tetra3_pipeline.py`).

The development shallowly embeds the parts of the script that carry real
control flow: the catalog pre-flight check (`ensure_catalog_available`), the
scoped working-directory change (`pushd` / `cmd_generate_db`), image-set
expansion and the solve loop with CSV logging (`cmd_solve`), and the process
exit-code behaviour of `main`.  External collaborators (the `tetra3` library
and the filesystem) are modelled as explicit inputs: the solver is a function
from an image path to an outcome, the filesystem is a finite map.
-/

namespace Tetra3Pipeline

/-! ### Lexicographic order on strings

Python sorts paths by comparing their text code point by code point.  We model
that comparison directly on the character lists underlying Lean strings.
-/

/-- Code-point lexicographic comparison of character lists, modelling how
Python compares the path strings fed to `sorted()`. -/
def charListLe : List Char → List Char → Bool
  | [], _ => true
  | _ :: _, [] => false
  | a :: as, b :: bs =>
    if a < b then true
    else if b < a then false
    else charListLe as bs

/-- Lexicographic order on strings, as used by Python `sorted()` on the
globbed path list in `cmd_solve`. -/
def strLe (a b : String) : Prop := charListLe a.data b.data = true

instance : DecidableRel strLe := fun a b =>
  inferInstanceAs (Decidable (charListLe a.data b.data = true))

theorem charListLe_total : ∀ a b : List Char, charListLe a b = true ∨ charListLe b a = true
  | [], _ => Or.inl rfl
  | _ :: _, [] => Or.inr rfl
  | a :: as, b :: bs => by
    rcases lt_trichotomy a b with h | h | h
    · left; simp [charListLe, h]
    · subst h
      rcases charListLe_total as bs with ih | ih
      · left; simp [charListLe, lt_irrefl, ih]
      · right; simp [charListLe, lt_irrefl, ih]
    · right; simp [charListLe, h]

theorem charListLe_trans : ∀ a b c : List Char,
    charListLe a b = true → charListLe b c = true → charListLe a c = true
  | [], _, _, _, _ => rfl
  | a :: as, b :: bs, [], hab, hbc => by simp [charListLe] at hbc
  | a :: as, [], c :: cs, hab, hbc => by simp [charListLe] at hab
  | a :: as, b :: bs, c :: cs, hab, hbc => by
    simp only [charListLe] at hab hbc ⊢
    rcases lt_trichotomy a b with h1 | h1 | h1
    · rcases lt_trichotomy b c with h2 | h2 | h2
      · simp [lt_trans h1 h2]
      · subst h2; simp [h1]
      · exact absurd hbc (by simp [lt_asymm h2, h2])
    · subst h1
      rcases lt_trichotomy a c with h2 | h2 | h2
      · simp [h2]
      · subst h2
        simp [lt_irrefl] at hab hbc ⊢
        exact charListLe_trans as bs cs hab hbc
      · exact absurd hbc (by simp [lt_asymm h2, h2])
    · exact absurd hab (by simp [lt_asymm h1, h1])

theorem charListLe_antisymm : ∀ a b : List Char,
    charListLe a b = true → charListLe b a = true → a = b
  | [], [], _, _ => rfl
  | _ :: _, [], hab, _ => by simp [charListLe] at hab
  | [], _ :: _, _, hba => by simp [charListLe] at hba
  | a :: as, b :: bs, hab, hba => by
    simp only [charListLe] at hab hba
    rcases lt_trichotomy a b with h | h | h
    · exact absurd hba (by simp [lt_asymm h, h])
    · subst h
      simp [lt_irrefl] at hab hba
      exact congrArg (a :: ·) (charListLe_antisymm as bs hab hba)
    · exact absurd hab (by simp [lt_asymm h, h])

instance : IsTotal String strLe := ⟨fun a b => charListLe_total a.data b.data⟩

instance : IsTrans String strLe := ⟨fun a b c => charListLe_trans a.data b.data c.data⟩

instance : IsAntisymm String strLe :=
  ⟨fun a b hab hba => by
    cases a; cases b
    exact congrArg String.mk (charListLe_antisymm _ _ hab hba)⟩

/-- Model of Python `sorted()` on a list of path strings. -/
def sortStrings (l : List String) : List String := List.insertionSort strLe l

theorem sortStrings_sorted (l : List String) : (sortStrings l).Sorted strLe :=
  List.sorted_insertionSort strLe l

theorem sortStrings_perm (l : List String) : (sortStrings l).Perm l :=
  List.perm_insertionSort strLe l

theorem sortStrings_congr {l₁ l₂ : List String} (h : l₁.Perm l₂) :
    sortStrings l₁ = sortStrings l₂ :=
  List.eq_of_perm_of_sorted ((sortStrings_perm l₁).trans (h.trans (sortStrings_perm l₂).symm))
    (sortStrings_sorted l₁) (sortStrings_sorted l₂)

/-! ### Image-set expansion (`cmd_solve`, lines 133-141)

`pth.glob("*.ext")` on a flat directory matches exactly the entries whose
name ends with `.ext` (pathlib matches the pattern against each entry name,
and `*` also matches the empty string).  The directory listing is an input;
the source then sorts the union of the seven glob results. -/

/-- `globMatch ext name` models whether `name` matches the glob pattern
`*ext` (for the patterns used by the source, `ext` is an extension such as
`".jpg"`): true exactly when `ext` is a suffix of `name`. -/
def globMatch (ext : String) (name : String) : Bool :=
  ext.data.isSuffixOf name.data

/-- The directory expansion of `cmd_solve`: the concatenation of the seven
glob results, in source order, passed to `sorted()`. -/
def expandDir (files : List String) : List String :=
  sortStrings (files.filter (globMatch ".jpg") ++ files.filter (globMatch ".jpeg") ++
    files.filter (globMatch ".png") ++ files.filter (globMatch ".tif") ++
    files.filter (globMatch ".tiff") ++ files.filter (globMatch ".bmp") ++
    files.filter (globMatch ".fits"))

/-- A name is an image name when it matches one of the whitelisted
extensions globbed by the source. -/
def isImageName (name : String) : Bool :=
  globMatch ".jpg" name || globMatch ".jpeg" name || globMatch ".png" name ||
    globMatch ".tif" name || globMatch ".tiff" name || globMatch ".bmp" name ||
    globMatch ".fits" name

theorem filter_append_perm_or {α : Type} (p q : α → Bool) (l : List α)
    (h : ∀ x ∈ l, ¬(p x = true ∧ q x = true)) :
    (l.filter p ++ l.filter q).Perm (l.filter (fun x => p x || q x)) := by
  induction l with
  | nil => simp
  | cons a t ih =>
    have ht : ∀ x ∈ t, ¬(p x = true ∧ q x = true) := fun x hx => h x (List.mem_cons_of_mem _ hx)
    by_cases hp : p a = true
    · have hq : ¬ q a = true := fun hq => h a (List.mem_cons_self a t) ⟨hp, hq⟩
      simp only [List.filter_cons, hp, Bool.true_or, if_true,
        Bool.not_eq_true] at *
      simpa [hq] using (ih ht).cons a
    · by_cases hq : q a = true
      · simp only [List.filter_cons, hq, Bool.or_true, if_true]
        simp only [Bool.not_eq_true] at hp
        simp only [hp, Bool.false_eq_true, if_false]
        exact List.perm_middle.trans ((ih ht).cons a)
      · simp only [Bool.not_eq_true] at hp hq
        simpa [List.filter_cons, hp, hq] using ih ht

theorem globMatch_disjoint {e1 e2 : String}
    (h12 : ¬ (e1.data <:+ e2.data)) (h21 : ¬ (e2.data <:+ e1.data)) :
    ∀ name : String, ¬(globMatch e1 name = true ∧ globMatch e2 name = true) := by
  rintro name ⟨a, b⟩
  rw [globMatch, List.isSuffixOf_iff_suffix] at a b
  rcases List.suffix_or_suffix_of_suffix a b with h | h
  exacts [h12 h, h21 h]

theorem or_disjoint {p q r : String → Bool}
    (hpr : ∀ n, ¬(p n = true ∧ r n = true)) (hqr : ∀ n, ¬(q n = true ∧ r n = true)) :
    ∀ n, ¬((p n || q n) = true ∧ r n = true) := by
  rintro n ⟨hpq, hr⟩
  rcases (Bool.or_eq_true _ _).mp hpq with h | h
  exacts [hpr n ⟨h, hr⟩, hqr n ⟨h, hr⟩]

theorem globAll_perm (files : List String) :
    (files.filter (globMatch ".jpg") ++ files.filter (globMatch ".jpeg") ++
      files.filter (globMatch ".png") ++ files.filter (globMatch ".tif") ++
      files.filter (globMatch ".tiff") ++ files.filter (globMatch ".bmp") ++
      files.filter (globMatch ".fits")).Perm (files.filter isImageName) := by
  have D : ∀ (e1 e2 : String), ¬ (e1.data <:+ e2.data) → ¬ (e2.data <:+ e1.data) →
      ∀ n, ¬(globMatch e1 n = true ∧ globMatch e2 n = true) := fun _ _ => globMatch_disjoint
  have d12 := D ".jpg" ".jpeg" (by decide) (by decide)
  have d13 := D ".jpg" ".png" (by decide) (by decide)
  have d14 := D ".jpg" ".tif" (by decide) (by decide)
  have d15 := D ".jpg" ".tiff" (by decide) (by decide)
  have d16 := D ".jpg" ".bmp" (by decide) (by decide)
  have d17 := D ".jpg" ".fits" (by decide) (by decide)
  have d23 := D ".jpeg" ".png" (by decide) (by decide)
  have d24 := D ".jpeg" ".tif" (by decide) (by decide)
  have d25 := D ".jpeg" ".tiff" (by decide) (by decide)
  have d26 := D ".jpeg" ".bmp" (by decide) (by decide)
  have d27 := D ".jpeg" ".fits" (by decide) (by decide)
  have d34 := D ".png" ".tif" (by decide) (by decide)
  have d35 := D ".png" ".tiff" (by decide) (by decide)
  have d36 := D ".png" ".bmp" (by decide) (by decide)
  have d37 := D ".png" ".fits" (by decide) (by decide)
  have d45 := D ".tif" ".tiff" (by decide) (by decide)
  have d46 := D ".tif" ".bmp" (by decide) (by decide)
  have d47 := D ".tif" ".fits" (by decide) (by decide)
  have d56 := D ".tiff" ".bmp" (by decide) (by decide)
  have d57 := D ".tiff" ".fits" (by decide) (by decide)
  have d67 := D ".bmp" ".fits" (by decide) (by decide)
  have step : ∀ (q p : String → Bool) (rest : List String),
      rest.Perm (files.filter q) → (∀ x, ¬(q x = true ∧ p x = true)) →
      (rest ++ files.filter p).Perm (files.filter (fun x => q x || p x)) :=
    fun q p rest hrest h =>
      (hrest.append_right _).trans (filter_append_perm_or q p files (fun x _ => h x))
  have h2 := filter_append_perm_or (globMatch ".jpg") (globMatch ".jpeg") files
    (fun x _ => d12 x)
  have h3 := step _ (globMatch ".png") _ h2 (or_disjoint d13 d23)
  have h4 := step _ (globMatch ".tif") _ h3 (or_disjoint (or_disjoint d14 d24) d34)
  have h5 := step _ (globMatch ".tiff") _ h4
    (or_disjoint (or_disjoint (or_disjoint d15 d25) d35) d45)
  have h6 := step _ (globMatch ".bmp") _ h5
    (or_disjoint (or_disjoint (or_disjoint (or_disjoint d16 d26) d36) d46) d56)
  have h7 := step _ (globMatch ".fits") _ h6
    (or_disjoint (or_disjoint (or_disjoint (or_disjoint (or_disjoint d17 d27) d37) d47) d57) d67)
  exact h7

/-- The per-directory expansion equals the sorted whitelist filter. -/
theorem expandDir_eq_filter (files : List String) :
    expandDir files = sortStrings (files.filter isImageName) :=
  sortStrings_congr (globAll_perm files)

/-! ### Filesystem model and full image-set expansion -/

/-- The filesystem as seen by `cmd_solve`: which paths are directories (and
their listing), and which file paths exist (for the database check). -/
structure FileSystem where
  dirs : List (String × List String)
  existing : List String
deriving DecidableEq

def isDir (fs : FileSystem) (p : String) : Bool := (fs.dirs.lookup p).isSome

def listDir (fs : FileSystem) (p : String) : List String := (fs.dirs.lookup p).getD []

def fileExists (fs : FileSystem) (p : String) : Bool := fs.existing.contains p

/-- `pth / name` for an entry found by globbing inside directory `pth`. -/
def joinPath (d n : String) : String := d ++ "/" ++ n

/-- Expansion of one positional argument of `solve` (`cmd_solve`, lines
134-141): a directory is globbed (the glob yields the joined paths, which
are then sorted); anything else is appended verbatim. -/
def expandArg (fs : FileSystem) (p : String) : List String :=
  if isDir fs p then expandDir ((listDir fs p).map (joinPath p)) else [p]

/-- The `images` list accumulated by the `for p in args.images` loop. -/
def expandImages (fs : FileSystem) (args : List String) : List String :=
  args.foldl (fun acc p => acc ++ expandArg fs p) []

/-! ### The solve loop (`cmd_solve`, lines 126-198) and `main`

The external solver (`t3.solve_from_image`) is modelled as a function from
the image path to an outcome: a returned result dictionary, a raised
`Exception` (caught by the per-item handler), or a raised
`KeyboardInterrupt` (which `except Exception` does **not** catch, so it
propagates through the `finally` block up to `main`, which turns it into
exit code 130). -/

/-- The solver result dictionary: `res.get(key, default)` is modelled by
`Option.getD`.  Field values are kept as the strings the CSV writer would
render. -/
structure SolverResult where
  success : Option Bool
  ra_deg : Option String
  dec_deg : Option String
  rotation_deg : Option String
  fov_deg : Option String
deriving DecidableEq

inductive SolveOutcome where
  | ok (res : SolverResult)
  | err
  | interrupt
deriving DecidableEq

/-- Python `str()` of a bool, as the CSV writer renders it. -/
def boolStr (b : Bool) : String := if b then "True" else "False"

/-- The CSV data row the loop body emits for one image. -/
def emitRow (solver : String → SolveOutcome) (img : String) : List String :=
  match solver img with
  | .err => [img, "False", "", "", "", ""]
  | .interrupt => []
  | .ok res =>
    [img, boolStr (res.success.getD false), res.ra_deg.getD "",
      res.dec_deg.getD "", res.rotation_deg.getD "", res.fov_deg.getD ""]

/-- The `for img in images` loop: returns the emitted rows in order and
whether a `KeyboardInterrupt` escaped the loop.  A caught solver error
writes a failure row and continues; an interrupt stops the loop at once. -/
def solveLoop (solver : String → SolveOutcome) : List String → List (List String) × Bool
  | [] => ([], false)
  | img :: rest =>
    match solver img with
    | .interrupt => ([], true)
    | .err =>
      let r := solveLoop solver rest
      ([img, "False", "", "", "", ""] :: r.1, r.2)
    | .ok res =>
      let r := solveLoop solver rest
      ([img, boolStr (res.success.getD false), res.ra_deg.getD "",
        res.dec_deg.getD "", res.rotation_deg.getD "", res.fov_deg.getD ""] :: r.1, r.2)

/-- The images the loop body actually processes: the prefix strictly before
the first interrupting image. -/
def processedImages (solver : String → SolveOutcome) : List String → List String
  | [] => []
  | img :: rest =>
    match solver img with
    | .interrupt => []
    | _ => img :: processedImages solver rest

theorem solveLoop_rows (solver : String → SolveOutcome) (l : List String) :
    (solveLoop solver l).1 = (processedImages solver l).map (emitRow solver) := by
  induction l with
  | nil => rfl
  | cons img rest ih =>
    cases h : solver img <;>
      simp [solveLoop, processedImages, emitRow, h, ih]

theorem solveLoop_no_interrupt (solver : String → SolveOutcome) (l : List String)
    (h : ∀ img ∈ l, solver img ≠ .interrupt) :
    solveLoop solver l = (l.map (emitRow solver), false) := by
  induction l with
  | nil => rfl
  | cons img rest ih =>
    have hrest := ih (fun i hi => h i (List.mem_cons_of_mem _ hi))
    cases hc : solver img with
    | interrupt => exact absurd hc (h img (List.mem_cons_self img rest))
    | err => simp [solveLoop, emitRow, hc, hrest]
    | ok res => simp [solveLoop, emitRow, hc, hrest]

/-- The contents of CSV files on disk, path-keyed; a write shadows any
previous contents at that path (`open(path, "w")` truncates). -/
def Store := List (String × List (List String))

def readStore (st : Store) (p : String) : Option (List (List String)) :=
  List.lookup p st

def writeStore (st : Store) (p : String) (content : List (List String)) : Store :=
  (p, content) :: st

/-- The fixed CSV header row written before the loop. -/
def csvHeader : List String :=
  ["image", "success", "ra_deg", "dec_deg", "rotation_deg", "fov_deg"]

/-- Directory part of a path (text before the last slash); models
`csv_path.parent`. -/
def parentDir (p : String) : String :=
  String.mk (((p.data.reverse.dropWhile (fun c => !(c == '/'))).drop 1).reverse)

/-- The `solve` arguments that drive control flow. -/
structure SolveArgs where
  images : List String
  database : String
  csv : Option String
deriving DecidableEq

/-- Everything observable about one `solve` run: the process exit code
(`main` returns 0 on normal completion, 130 on `KeyboardInterrupt`;
`sys.exit(n)` inside the command exits with `n`), whether the database was
loaded, the console error messages, the emitted result rows, whether the CSV
handle was closed, the CSV store after the run, and the directories created
for the CSV path. -/
structure SolveExec where
  exitCode : Nat
  dbLoaded : Bool
  messages : List String
  rows : List (List String)
  csvClosed : Option Bool
  store : Store
  createdDirs : List String

/-- Shallow embedding of `cmd_solve` plus the exit-code handling of `main`:
database existence check (exit 4), image expansion, empty check (exit 5),
database load, optional CSV creation (parent `mkdir`, truncating open,
header row), the solve loop, and the `finally` that closes the CSV on both
the normal and the exception exit path. -/
def cmd_solve (fs : FileSystem) (store : Store) (solver : String → SolveOutcome)
    (args : SolveArgs) : SolveExec :=
  if fileExists fs args.database = false then
    { exitCode := 4, dbLoaded := false,
      messages := ["ERROR: Database file not found.",
        "Generate it first with the generate-db command."],
      rows := [], csvClosed := none, store := store, createdDirs := [] }
  else
    let images := expandImages fs args.images
    if images.isEmpty then
      { exitCode := 5, dbLoaded := false, messages := ["ERROR: No images to solve."],
        rows := [], csvClosed := none, store := store, createdDirs := [] }
    else
      let r := solveLoop solver images
      match args.csv with
      | some p =>
        { exitCode := if r.2 then 130 else 0, dbLoaded := true, messages := [],
          rows := r.1, csvClosed := some true,
          store := writeStore store p (csvHeader :: r.1),
          createdDirs := [parentDir p] }
      | none =>
        { exitCode := if r.2 then 130 else 0, dbLoaded := true, messages := [],
          rows := r.1, csvClosed := none, store := store, createdDirs := [] }

/-! ### Scoped working-directory change (`pushd`, lines 31-38; `cmd_generate_db`,
lines 95-99)

The process working directory is modelled as a trace of `chdir` events plus
the event of invoking the external generation routine, which records the
working directory in force at the moment of the call.  The external routine
either returns or raises; the boolean in the result records whether an
exception propagated out. -/

inductive GenEvent where
  | chdir (d : String)
  | generateCall (cwd : String)
deriving DecidableEq

inductive GenOutcome where
  | ok
  | raises
deriving DecidableEq

/-- The working directory after replaying a trace from `cwd0`. -/
def cwdAfter (cwd0 : String) (tr : List GenEvent) : String :=
  tr.foldl (fun c e => match e with | .chdir d => d | .generateCall _ => c) cwd0

/-- `_generate_db_core`: calls the external `generate_database` in the
current working directory; it either returns or raises. -/
def generateCore (gen : GenOutcome) (cwd : String) : List GenEvent × Bool :=
  ([.generateCall cwd], gen = GenOutcome.raises)

/-- The `pushd` context manager: remember the previous directory, `chdir`
into the new one, run the body, and — in a `finally` block, so on the raise
path as well — `chdir` back to the previous directory. -/
def pushd (newDir : String) (body : String → List GenEvent × Bool) (cwd : String) :
    List GenEvent × Bool :=
  let prev := cwd
  let r := body newDir
  (GenEvent.chdir newDir :: r.1 ++ [GenEvent.chdir prev], r.2)

/-- The working-directory behaviour of `cmd_generate_db`: with a catalog
directory the external call runs inside `pushd catalog_dir`, otherwise it
runs in the current directory. -/
def cmd_generate_db (catalog_dir : Option String) (gen : GenOutcome) (cwd : String) :
    List GenEvent × Bool :=
  match catalog_dir with
  | some d => pushd d (generateCore gen) cwd
  | none => generateCore gen cwd

/-! ### Catalog pre-flight check (`ensure_catalog_available`, lines 41-75) -/

/-- The `required` table: supported catalog name to expected on-disk file. -/
def requiredCatalogs : List (String × String) :=
  [("hip_main", "hip_main.dat"), ("tyc_main", "tyc_main.dat"), ("bsc5", "bsc5.dat")]

/-- The acquisition hint printed when the catalog file is missing. -/
inductive Hint where
  | downloadHip
  | downloadBsc5
  | renameTycho
deriving DecidableEq

/-- Which hint `ensure_catalog_available` prints for each catalog
(`hip_main` and `bsc5` get a download URL, the remaining branch the Tycho-2
rename instruction). -/
def catalogHint (star_catalog : String) : Hint :=
  if star_catalog = "hip_main" then .downloadHip
  else if star_catalog = "bsc5" then .downloadBsc5
  else .renameTycho

/-- Console output of the catalog check, kept structured. -/
inductive CatMsg where
  | unsupported (given : String) (valid : List String)
  | missing (filename : String) (searched : String)
  | hint (h : Hint)
deriving DecidableEq

/-- Everything observable about one run of `ensure_catalog_available`:
whether it called `sys.exit` (and with which code), what it printed, every
filesystem existence probe it performed (in order), and the directory whose
probe succeeded, if any. -/
structure EnsureOutcome where
  exit : Option Nat
  messages : List CatMsg
  probes : List (String × String)
  foundIn : Option String
deriving DecidableEq

/-- The `for d in search_dirs` probe loop: returns the first directory
containing `filename` and the list of `(d / filename).exists()` probes
actually performed. -/
def probeSearch (fs : List (String × String)) (filename : String) :
    List String → Option String × List (String × String)
  | [] => (none, [])
  | d :: rest =>
    if (d, filename) ∈ fs then (some d, [(d, filename)])
    else
      let r := probeSearch fs filename rest
      (r.1, (d, filename) :: r.2)

/-- The `search_dirs` list: the explicit catalog directory (when given)
followed by the current working directory. -/
def searchDirs (catalog_dir : Option String) (cwd : String) : List String :=
  (match catalog_dir with | some d => [d] | none => []) ++ [cwd]

/-- Shallow embedding of `ensure_catalog_available`.  `fs` is the set of
`(directory, filename)` pairs that exist on disk. -/
def ensure_catalog_available (fs : List (String × String)) (cwd : String)
    (star_catalog : String) (catalog_dir : Option String) : EnsureOutcome :=
  match requiredCatalogs.lookup star_catalog with
  | none =>
    { exit := some 2,
      messages := [.unsupported star_catalog (requiredCatalogs.map Prod.fst)],
      probes := [], foundIn := none }
  | some filename =>
    let r := probeSearch fs filename (searchDirs catalog_dir cwd)
    match r.1 with
    | some d => { exit := none, messages := [], probes := r.2, foundIn := some d }
    | none =>
      { exit := some 3,
        messages := [.missing filename (catalog_dir.getD cwd), .hint (catalogHint star_catalog)],
        probes := r.2, foundIn := none }

theorem probeSearch_none (fs : List (String × String)) (f : String) (dirs : List String)
    (h : ∀ dir ∈ dirs, (dir, f) ∉ fs) :
    probeSearch fs f dirs = (none, dirs.map (fun dd => (dd, f))) := by
  induction dirs with
  | nil => rfl
  | cons d rest ih =>
    have hd : (d, f) ∉ fs := h d (List.mem_cons_self d rest)
    simp [probeSearch, hd, ih (fun dd hdd => h dd (List.mem_cons_of_mem _ hdd))]

/-! ### Claim theorems -/

/-- C6: for every directory argument, image expansion yields exactly the
files matching the extension whitelist `.jpg`, `.jpeg`, `.png`, `.tif`,
`.tiff`, `.bmp`, `.fits`, sorted lexicographically per directory, and
excludes every file with any other extension; a directory containing
`b.png`, `a.jpg`, `c.fits`, `d.txt` yields exactly
`[a.jpg, b.png, c.fits]`. -/
theorem solve_directory_expansion_whitelist :
    (∀ files : List String,
      expandDir files = sortStrings (files.filter isImageName) ∧
      (expandDir files).Sorted strLe) ∧
    expandDir ["b.png", "a.jpg", "c.fits", "d.txt"] = ["a.jpg", "b.png", "c.fits"] :=
  ⟨fun files => ⟨expandDir_eq_filter files, sortStrings_sorted _⟩, by decide⟩

/-- C3: with a catalog directory, the working directory is the catalog
directory exactly for the duration of the external generation call and is
restored to the previous directory on every exit path, including when the
call raises. -/
theorem generate_db_scoped_chdir (d : String) (gen : GenOutcome) (cwd0 : String) :
    cwdAfter cwd0 (cmd_generate_db (some d) gen cwd0).1 = cwd0 ∧
    GenEvent.generateCall d ∈ (cmd_generate_db (some d) gen cwd0).1 ∧
    (∀ c, GenEvent.generateCall c ∈ (cmd_generate_db (some d) gen cwd0).1 → c = d) ∧
    ((cmd_generate_db (some d) gen cwd0).2 = true ↔ gen = GenOutcome.raises) := by
  cases gen <;> simp [cmd_generate_db, pushd, generateCore, cwdAfter]

/-- C4: for every supported catalog, the check probes the explicit catalog
directory before the current working directory and succeeds on the first
directory holding the expected file (so the catalog directory wins even if
the working directory also has the file); when no searched directory holds
the file, the check exits with the distinct fatal code 3 and prints the
catalog-specific acquisition hint. -/
theorem catalog_search_order (c f : String) (h : requiredCatalogs.lookup c = some f) :
    (∀ (fs : List (String × String)) (cwd d : String), (d, f) ∈ fs →
      (ensure_catalog_available fs cwd c (some d)).foundIn = some d ∧
      (ensure_catalog_available fs cwd c (some d)).exit = none ∧
      (ensure_catalog_available fs cwd c (some d)).probes = [(d, f)]) ∧
    (∀ (fs : List (String × String)) (cwd : String) (cdir : Option String),
      (∀ dir ∈ searchDirs cdir cwd, (dir, f) ∉ fs) →
      (ensure_catalog_available fs cwd c cdir).exit = some 3 ∧
      CatMsg.hint (catalogHint c) ∈ (ensure_catalog_available fs cwd c cdir).messages ∧
      (3 : Nat) ∉ ([0, 2, 4, 5, 130] : List Nat)) := by
  constructor
  · intro fs cwd d hmem
    simp [ensure_catalog_available, h, searchDirs, probeSearch, hmem]
  · intro fs cwd cdir habsent
    simp [ensure_catalog_available, h, probeSearch_none fs f _ habsent]

/-- Witness for C4 at `hip_main`: the file placed in the catalog directory
wins even though the working directory holds a file of the same name. -/
theorem catalog_search_order_witness :
    requiredCatalogs.lookup "hip_main" = some "hip_main.dat" ∧
    (ensure_catalog_available [("catdir", "hip_main.dat"), ("cwd", "hip_main.dat")]
      "cwd" "hip_main" (some "catdir")).foundIn = some "catdir" :=
  ⟨by decide, ((catalog_search_order "hip_main" "hip_main.dat" (by decide)).1
      [("catdir", "hip_main.dat"), ("cwd", "hip_main.dat")] "cwd" "catdir" (by decide)).1⟩

/-- C5: an unsupported catalog name fails with the distinct fatal code 2,
printing the list of valid names, before any filesystem existence probe. -/
theorem catalog_unsupported (c : String)
    (h1 : c ≠ "hip_main") (h2 : c ≠ "tyc_main") (h3 : c ≠ "bsc5") :
    ∀ (fs : List (String × String)) (cwd : String) (cdir : Option String),
      (ensure_catalog_available fs cwd c cdir).exit = some 2 ∧
      (ensure_catalog_available fs cwd c cdir).probes = [] ∧
      CatMsg.unsupported c ["hip_main", "tyc_main", "bsc5"]
        ∈ (ensure_catalog_available fs cwd c cdir).messages ∧
      (2 : Nat) ∉ ([0, 3, 4, 5, 130] : List Nat) := by
  intro fs cwd cdir
  have e1 : (c == "hip_main") = false := beq_eq_false_iff_ne.mpr h1
  have e2 : (c == "tyc_main") = false := beq_eq_false_iff_ne.mpr h2
  have e3 : (c == "bsc5") = false := beq_eq_false_iff_ne.mpr h3
  have hl : requiredCatalogs.lookup c = none := by
    simp [requiredCatalogs, List.lookup, e1, e2, e3]
  simp only [ensure_catalog_available, hl]
  simp [requiredCatalogs]

/-- Witness for C5 at the unsupported name `gaia`. -/
theorem catalog_unsupported_witness :
    ("gaia" ≠ "hip_main" ∧ "gaia" ≠ "tyc_main" ∧ "gaia" ≠ "bsc5") ∧
    (ensure_catalog_available [] "cwd" "gaia" none).exit = some 2 :=
  ⟨by decide, (catalog_unsupported "gaia" (by decide) (by decide) (by decide) [] "cwd" none).1⟩

/-- C1: when the external solver raises for some images of a batch (and no
interrupt occurs), every error is caught, a failure row with empty
positional fields is recorded for that image, the loop continues, rows come
out in expansion order — one per image — and the process exits with 0. -/
theorem solve_per_item_isolation (fs : FileSystem) (store : Store)
    (solver : String → SolveOutcome) (args : SolveArgs)
    (hdb : fileExists fs args.database = true)
    (himgs : expandImages fs args.images ≠ [])
    (hni : ∀ img ∈ expandImages fs args.images, solver img ≠ SolveOutcome.interrupt) :
    (cmd_solve fs store solver args).rows
      = (expandImages fs args.images).map (emitRow solver) ∧
    (∀ img, solver img = SolveOutcome.err →
      emitRow solver img = [img, "False", "", "", "", ""]) ∧
    (cmd_solve fs store solver args).exitCode = 0 := by
  have hloop := solveLoop_no_interrupt solver _ hni
  have hne : (expandImages fs args.images).isEmpty = false := by
    simpa [List.isEmpty_iff] using himgs
  refine ⟨?_, fun img h => by simp [emitRow, h], ?_⟩ <;>
    cases hc : args.csv <;> simp [cmd_solve, hdb, hne, hloop, hc]

/-- Witness for C1: three images, the second raising in the solver; three
rows in order and exit code 0. -/
theorem solve_per_item_isolation_witness :
    fileExists ⟨[], ["db.npz"]⟩ "db.npz" = true ∧
    expandImages ⟨[], ["db.npz"]⟩ ["a.jpg", "b.jpg", "c.jpg"] ≠ [] ∧
    (cmd_solve ⟨[], ["db.npz"]⟩ ([] : Store)
      (fun img => if img = "b.jpg" then SolveOutcome.err
        else SolveOutcome.ok ⟨some true, some "1.0", some "2.0", some "3.0", some "4.0"⟩)
      ⟨["a.jpg", "b.jpg", "c.jpg"], "db.npz", none⟩).exitCode = 0 :=
  ⟨by decide, by decide,
    (solve_per_item_isolation _ _ _ _ (by decide) (by decide) (by decide)).2.2⟩

/-- C2: with CSV logging requested, the file carries exactly the fixed
header followed by one data row per processed image in emission order, and
the handle is closed on every exit path of the loop — normal completion and
the exception (interrupt) path alike. -/
theorem solve_csv_lifecycle (fs : FileSystem) (store : Store)
    (solver : String → SolveOutcome) (args : SolveArgs) (p : String)
    (hdb : fileExists fs args.database = true)
    (himgs : expandImages fs args.images ≠ [])
    (hcsv : args.csv = some p) :
    (cmd_solve fs store solver args).csvClosed = some true ∧
    readStore (cmd_solve fs store solver args).store p
      = some (csvHeader ::
        (processedImages solver (expandImages fs args.images)).map (emitRow solver)) ∧
    csvHeader = ["image", "success", "ra_deg", "dec_deg", "rotation_deg", "fov_deg"] := by
  have hne : (expandImages fs args.images).isEmpty = false := by
    simpa [List.isEmpty_iff] using himgs
  have hrows := solveLoop_rows solver (expandImages fs args.images)
  refine ⟨?_, ?_, rfl⟩ <;>
    simp [cmd_solve, hdb, hne, hcsv, readStore, writeStore, List.lookup, hrows]

/-- Witness for C2: a batch whose second image raises `KeyboardInterrupt`;
the CSV handle is still closed. -/
theorem solve_csv_lifecycle_witness :
    fileExists ⟨[], ["db.npz"]⟩ "db.npz" = true ∧
    expandImages ⟨[], ["db.npz"]⟩ ["a.jpg", "b.jpg", "c.jpg"] ≠ [] ∧
    (SolveArgs.mk ["a.jpg", "b.jpg", "c.jpg"] "db.npz" (some "out.csv")).csv = some "out.csv" ∧
    (cmd_solve ⟨[], ["db.npz"]⟩ ([] : Store)
      (fun img => if img = "b.jpg" then SolveOutcome.interrupt
        else SolveOutcome.ok ⟨some true, none, none, none, none⟩)
      ⟨["a.jpg", "b.jpg", "c.jpg"], "db.npz", some "out.csv"⟩).csvClosed = some true :=
  ⟨by decide, by decide, rfl,
    (solve_csv_lifecycle _ _ _ _ "out.csv" (by decide) (by decide) rfl).1⟩

theorem expandImages_eq_flatten (fs : FileSystem) (args : List String) :
    expandImages fs args = (args.map (expandArg fs)).flatten := by
  suffices h : ∀ acc, args.foldl (fun a x => a ++ expandArg fs x) acc
      = acc ++ (args.map (expandArg fs)).flatten by
    simpa [expandImages] using h []
  induction args with
  | nil => intro acc; simp
  | cons a t ih => intro acc; simp [ih, List.append_assoc]

/-- C7 counterexample: two arguments naming the same file are both kept, so
the expanded sequence is not deduplicated. -/
theorem expansion_dedup_counterexample :
    expandImages ⟨[], []⟩ ["a.jpg", "a.jpg"] = ["a.jpg", "a.jpg"] ∧
    ¬ (expandImages ⟨[], []⟩ ["a.jpg", "a.jpg"]).Nodup ∧
    (expandImages ⟨[], []⟩ ["a.jpg", "a.jpg"]).count "a.jpg" = 2 := by
  decide

/-- C7 (amended): image-set expansion concatenates the per-argument
expansions without deduplication — a path reached by several arguments
occurs once per occurrence, its multiplicities adding up. -/
theorem expansion_preserves_duplicates :
    (∀ (fs : FileSystem) (args : List String),
      expandImages fs args = (args.map (expandArg fs)).flatten) ∧
    (∀ (fs : FileSystem) (args : List String) (p : String),
      (expandImages fs args).count p
        = (args.map (fun a => (expandArg fs a).count p)).sum) := by
  have hc : ∀ (l : List (List String)) (p : String),
      l.flatten.count p = (l.map (fun x => x.count p)).sum := by
    intro l p
    induction l with
    | nil => simp
    | cons a t ih => simp [List.count_append, ih]
  refine ⟨expandImages_eq_flatten, fun fs args p => ?_⟩
  rw [expandImages_eq_flatten, hc, List.map_map]
  rfl

/-- C8: with the database present but the expanded image sequence empty,
`solve` reports the no-images error and exits with the distinct fatal code
5 before loading any database. -/
theorem solve_no_images (fs : FileSystem) (store : Store)
    (solver : String → SolveOutcome) (args : SolveArgs)
    (hdb : fileExists fs args.database = true)
    (h : expandImages fs args.images = []) :
    (cmd_solve fs store solver args).exitCode = 5 ∧
    (cmd_solve fs store solver args).dbLoaded = false ∧
    (cmd_solve fs store solver args).messages = ["ERROR: No images to solve."] ∧
    (cmd_solve fs store solver args).csvClosed = none ∧
    (5 : Nat) ∉ ([0, 2, 3, 4, 130] : List Nat) := by
  simp [cmd_solve, hdb, h]

/-- Witness for C8: an empty directory as the sole argument. -/
theorem solve_no_images_witness :
    fileExists ⟨[("imgs", [])], ["db.npz"]⟩ "db.npz" = true ∧
    expandImages ⟨[("imgs", [])], ["db.npz"]⟩ ["imgs"] = [] ∧
    (cmd_solve ⟨[("imgs", [])], ["db.npz"]⟩ ([] : Store) (fun _ => SolveOutcome.err)
      ⟨["imgs"], "db.npz", none⟩).exitCode = 5 :=
  ⟨by decide, by decide, (solve_no_images _ _ _ _ (by decide) (by decide)).1⟩

/-- The interface contract of the external solver (spec section 6): when it
returns without raising and reports failure, the positional fields are
absent. -/
def solverRespectsInterface (solver : String → SolveOutcome) : Prop :=
  ∀ img res, solver img = SolveOutcome.ok res → res.success.getD false = false →
    res.ra_deg = none ∧ res.dec_deg = none ∧ res.rotation_deg = none ∧ res.fov_deg = none

/-- C9: every result whose success flag is false — caught solver exception
or error-free return reporting failure — is recorded and written with all
four positional fields empty. -/
theorem failed_result_fields_empty (solver : String → SolveOutcome) (img : String)
    (hface : solverRespectsInterface solver)
    (hfail : solver img = SolveOutcome.err ∨
      ∃ res, solver img = SolveOutcome.ok res ∧ res.success.getD false = false) :
    emitRow solver img = [img, "False", "", "", "", ""] ∧
    (∀ l, img ∈ l → (∀ i ∈ l, solver i ≠ SolveOutcome.interrupt) →
      [img, "False", "", "", "", ""] ∈ (solveLoop solver l).1) := by
  have hrow : emitRow solver img = [img, "False", "", "", "", ""] := by
    rcases hfail with h | ⟨res, h, hs⟩
    · simp [emitRow, h]
    · obtain ⟨h1, h2, h3, h4⟩ := hface img res h hs
      simp [emitRow, h, hs, boolStr, h1, h2, h3, h4]
  refine ⟨hrow, fun l hl hni => ?_⟩
  rw [solveLoop_no_interrupt solver l hni]
  exact List.mem_map.mpr ⟨img, hl, hrow⟩

/-- Witness for C9: an error-free solver return reporting failure. -/
theorem failed_result_fields_empty_witness :
    solverRespectsInterface (fun _ => SolveOutcome.ok ⟨some false, none, none, none, none⟩) ∧
    emitRow (fun _ => SolveOutcome.ok ⟨some false, none, none, none, none⟩) "x.png"
      = ["x.png", "False", "", "", "", ""] :=
  ⟨fun _ res h _ => by cases h; exact ⟨rfl, rfl, rfl, rfl⟩,
    (failed_result_fields_empty _ "x.png"
      (fun _ res h _ => by cases h; exact ⟨rfl, rfl, rfl, rfl⟩)
      (Or.inr ⟨⟨some false, none, none, none, none⟩, rfl, rfl⟩)).1⟩

/-- C10: an existing file at the CSV path is truncated — after the run its
contents are exactly the header plus this run's rows, whatever they were
before — and the CSV path's parent directory is created first. -/
theorem solve_csv_truncates (fs : FileSystem) (store : Store)
    (solver : String → SolveOutcome) (args : SolveArgs) (p : String)
    (hdb : fileExists fs args.database = true)
    (himgs : expandImages fs args.images ≠ [])
    (hcsv : args.csv = some p) :
    readStore (cmd_solve fs store solver args).store p
      = some (csvHeader :: (solveLoop solver (expandImages fs args.images)).1) ∧
    (cmd_solve fs store solver args).createdDirs = [parentDir p] := by
  have hne : (expandImages fs args.images).isEmpty = false := by
    simpa [List.isEmpty_iff] using himgs
  constructor <;>
    simp [cmd_solve, hdb, hne, hcsv, readStore, writeStore, List.lookup]

/-- Witness for C10: stale contents at the CSV path are replaced by header
plus this run's single row. -/
theorem solve_csv_truncates_witness :
    fileExists ⟨[], ["db.npz"]⟩ "db.npz" = true ∧
    expandImages ⟨[], ["db.npz"]⟩ ["a.jpg"] ≠ [] ∧
    (SolveArgs.mk ["a.jpg"] "db.npz" (some "out.csv")).csv = some "out.csv" ∧
    readStore (cmd_solve ⟨[], ["db.npz"]⟩ [("out.csv", [["stale"]])]
        (fun _ => SolveOutcome.err) ⟨["a.jpg"], "db.npz", some "out.csv"⟩).store "out.csv"
      = some (csvHeader ::
        (solveLoop (fun _ => SolveOutcome.err) (expandImages ⟨[], ["db.npz"]⟩ ["a.jpg"])).1) :=
  ⟨by decide, by decide, rfl,
    (solve_csv_truncates _ _ _ _ "out.csv" (by decide) (by decide) rfl).1⟩

end Tetra3Pipeline
